import Mathlib

/-!
Verification of the SeaExplorer glider data-processing scripts.

The pipeline under study (script_completi/) is:
  1_convert_raw_to_separate_csv.py  (ingestion)
  2_merge_mission_data_csv.py       (merge)
  3_convert_all_units_csv.py        (unit conversion)
  4_rename_variables_csv.py         (renaming)

Tables are modelled as a header (list of column names) plus positional rows
of cells.  Numeric cells are exact rationals standing for the scripts'
IEEE doubles (the claims under study are about exact value flow, not about
rounding); a pandas NaN / absent cell is `Value.missing`.

The TEOS-10 library `gsw` is an external collaborator of the repository
(not part of its sources), so its four functions are abstracted as a
structure of black-box functions; a function returning `none` models a
raised exception inside the library call.
-/

namespace Seaexplorer

/-- A cell of a mission table: a (double-precision) number modelled as an
exact rational, a string, or pandas' NaN / a missing cell. -/
inductive Value where
  | num (q : ℚ)
  | str (s : String)
  | missing
deriving DecidableEq

/-- A numeric column as extracted from a table: one optional rational per row
(`none` = NaN/missing, as produced by pandas `notna`-style handling). -/
abbrev Col := List (Option ℚ)

/-- Numeric view of a cell (non-numeric cells read as missing, as after the
numeric-coercion step of the pipeline). -/
def toQ? : Value → Option ℚ
  | .num q => some q
  | _ => none

/-- Store an optional rational back into a cell. -/
def ofQ? : Option ℚ → Value
  | some q => .num q
  | none => .missing

/-- A mission table: an ordered header and positional rows (a DataFrame). -/
structure Table where
  cols : List String
  rows : List (List Value)
deriving DecidableEq

/-- Column read `df[c]` (numeric view); first matching header position, and
the empty column if the name is absent (call sites guard presence). -/
def Table.getColQ (t : Table) (c : String) : Col :=
  match t.cols.findIdx? (· == c) with
  | some i => t.rows.map (fun r => toQ? (r.getD i .missing))
  | none => []

/-- Column write `df[c] = vs`: overwrite the cells at the column's position
row by row.  All call sites write a column of the table's own row count
back to a present column, where this agrees with the pandas assignment. -/
def Table.setColQ (t : Table) (c : String) (vs : Col) : Table :=
  match t.cols.findIdx? (· == c) with
  | some i => ⟨t.cols, t.rows.mapIdx (fun j r => r.set i (ofQ? (vs.getD j none)))⟩
  | none => t

/-! ### 3_convert_all_units_csv.py: the column conversions -/

/-- convert_turbidity (3_convert_all_units_csv.py, lines 15-38):
`df[turbidity_var] = df[turbidity_var] * 366.70` when the column has at
least one valid value, otherwise the column is left untouched; NaN cells
stay NaN under the pandas elementwise product. -/
def convert_turbidity_column (c : Col) : Col :=
  if c.countP (·.isSome) = 0 then c
  else c.map (Option.map (fun x => x * 366.70))

/-- convert_conductivity (3_convert_all_units_csv.py, lines 60-83):
`df[conductivity_var] = df[conductivity_var] * 0.1` when the column has at
least one valid value, otherwise left untouched. -/
def convert_conductivity_column (c : Col) : Col :=
  if c.countP (·.isSome) = 0 then c
  else c.map (Option.map (fun x => x * 0.1))

/-- The TEOS-10 library `gsw` — an external collaborator, abstracted as
black-box functions.  Argument orders follow the call sites:
`SP_from_C(C, t, p)`, `SA_from_SP(SP, p, lon, lat)`, `CT_from_t(SA, t, p)`,
`rho(SA, CT, p)`.  A `none` result models the library call raising. -/
structure Gsw where
  SP_from_C : ℚ → ℚ → ℚ → Option ℚ
  SA_from_SP : ℚ → ℚ → ℚ → ℚ → Option ℚ
  CT_from_t : ℚ → ℚ → ℚ → Option ℚ
  rho : ℚ → ℚ → ℚ → Option ℚ

/-- The TEOS-10 chain of 3_convert_all_units_csv.py, lines 167-170, for one
row's (temperature, conductivity, pressure) at the run-level position
(mlat, mlon): SP from C, SA from SP, CT from t, then in-situ density. -/
def teosRho (g : Gsw) (mlat mlon t c p : ℚ) : Option ℚ :=
  g.SP_from_C c t p >>= fun sp =>
  g.SA_from_SP sp p mlon mlat >>= fun sa =>
  g.CT_from_t sa t p >>= fun ct =>
  g.rho sa ct p

/-- pandas `Series.mean()`: the mean of the non-missing entries. -/
def meanQ (c : Col) : ℚ :=
  let v := c.filterMap id
  v.sum / (v.length : ℚ)

/-- Number of rows where latitude and longitude are both present
(`(lat_data.notna() & lon_data.notna()).sum()`, line 146). -/
def countJoint (la lo : Col) : ℕ :=
  ((la.zip lo).filter (fun r => r.1.isSome && r.2.isSome)).length

/-- Coordinate selection of convert_oxygen (3_convert_all_units_csv.py,
lines 143-157): when both coordinate columns were identified and at least
one row carries both coordinates, the column means are used; otherwise the
hardcoded Canaries default (27.8, -15.5). -/
def meanCoords (latc lonc : Option Col) : ℚ × ℚ :=
  match latc, lonc with
  | some la, some lo =>
      if 0 < countJoint la lo then (meanQ la, meanQ lo) else (27.8, -15.5)
  | _, _ => (27.8, -15.5)

/-- Zip four columns into per-row tuples (oxygen, temperature,
conductivity, pressure). -/
def zip4 : List α → List β → List γ → List δ → List (α × β × γ × δ)
  | a :: as, b :: bs, c :: cs, d :: ds => (a, b, c, d) :: zip4 as bs cs ds
  | _, _, _, _ => []

/-- The completeness mask of convert_oxygen, lines 128-133: oxygen,
temperature, conductivity and pressure all non-missing in the row. -/
def completeB (r : Option ℚ × Option ℚ × Option ℚ × Option ℚ) : Bool :=
  r.1.isSome && r.2.1.isSome && r.2.2.1.isSome && r.2.2.2.isSome

/-- One row of the vectorised oxygen conversion: complete rows are
converted through the TEOS-10 chain (`oxygen * 1000 / rho`, line 173), a
library failure anywhere aborts the whole column (outer `none`), and
incomplete rows keep their original oxygen value. -/
def convRow (g : Gsw) (mlat mlon : ℚ)
    (r : Option ℚ × Option ℚ × Option ℚ × Option ℚ) : Option (Option ℚ) :=
  if completeB r then
    (teosRho g mlat mlon (r.2.1.getD 0) (r.2.2.1.getD 0) (r.2.2.2.getD 0)).map
      (fun rho => some (r.1.getD 0 * 1000 / rho))
  else some r.1

/-- Evaluate `f` on every element, failing as a whole if any element fails
(the whole-column try/except of convert_oxygen). -/
def mapOpt (f : α → Option β) : List α → Option (List β)
  | [] => some []
  | a :: l =>
    match f a, mapOpt f l with
    | some b, some l' => some (b :: l')
    | _, _ => none

/-- convert_oxygen (3_convert_all_units_csv.py, lines 115-187) at column
level: with no complete row the function returns early (line 140) leaving
the column as is; otherwise complete rows become `oxygen * 1000 / rho`
with a single run-level (mlat, mlon), incomplete rows keep their value,
and if the TEOS-10 library raises anywhere the whole column is returned
unconverted (the except branch, lines 184-187). -/
def convert_oxygen_column (g : Gsw) (ox temp cond pres : Col)
    (latc lonc : Option Col) : Col :=
  if (zip4 ox temp cond pres).countP completeB = 0 then ox
  else
    match mapOpt
        (convRow g (meanCoords latc lonc).1 (meanCoords latc lonc).2)
        (zip4 ox temp cond pres) with
    | some out => out
    | none => ox

/-- convert_coordinates (3_convert_all_units_csv.py, lines 85-113): the
function only reports ranges; the coordinate values pass through
unchanged ("Mantengo gradi decimali"). -/
def convert_coordinates (latc lonc : Option Col) : Option Col × Option Col :=
  (latc, lonc)

/-! ### 3_convert_all_units_csv.py: variable identification and the stage -/

def turbidityNames : List String :=
  ["TURB", "TURBIDITY", "BACKSCATTER", "FLBBCD_BB_700_SCALED", "FLBBCD_BB_700_NTU"]

def chlorophyllNames : List String :=
  ["CHLA", "CHLOROPHYLL", "CHL_A", "FLBBCD_CHL_SCALED"]

def conductivityNames : List String :=
  ["CNDC", "CONDUCTIVITY", "CTD_CONDUCTIVITY", "LEGATO_CONDUCTIVITY"]

def temperatureNames : List String :=
  ["TEMP", "TEMPERATURE", "CTD_TEMP", "LEGATO_TEMPERATURE"]

def pressureNames : List String :=
  ["PRES", "PRESSURE", "CTD_PRESSURE", "LEGATO_PRESSURE"]

def oxygenNames : List String :=
  ["DOXY", "DISSOLVED_OXYGEN", "OXYGEN", "O2", "LEGATO_CODA_DO"]

def latitudeNames : List String := ["LATITUDE", "NAV_LATITUDE"]

def longitudeNames : List String := ["LONGITUDE", "NAV_LONGITUDE"]

/-- Variable identification (lines 290-298): the first candidate name
present among the table's columns. -/
def findVar (t : Table) (names : List String) : Option String :=
  names.find? (fun n => t.cols.contains n)

/-- The turbidity step of the conversion stage (applied when a turbidity
variable was identified, lines 322-328). -/
def applyTurb (t : Table) : Table :=
  match findVar t turbidityNames with
  | some c => t.setColQ c (convert_turbidity_column (t.getColQ c))
  | none => t

/-- The conductivity step of the conversion stage (lines 338-344). -/
def applyCndc (t : Table) : Table :=
  match findVar t conductivityNames with
  | some c => t.setColQ c (convert_conductivity_column (t.getColQ c))
  | none => t

/-- The oxygen step of the conversion stage (lines 354-374): run only when
oxygen, temperature, conductivity and pressure variables were all
identified; the coordinate columns are handed over only when both were
identified (the `lat_var and lon_var` guard of line 143). -/
def applyOxy (g : Gsw) (t : Table) : Table :=
  match findVar t oxygenNames, findVar t temperatureNames,
        findVar t conductivityNames, findVar t pressureNames with
  | some oc, some tc, some cc, some pc =>
      let lcgc : Option Col × Option Col :=
        match findVar t latitudeNames, findVar t longitudeNames with
        | some lv, some gv => (some (t.getColQ lv), some (t.getColQ gv))
        | _, _ => (none, none)
      t.setColQ oc
        (convert_oxygen_column g (t.getColQ oc) (t.getColQ tc)
          (t.getColQ cc) (t.getColQ pc) lcgc.1 lcgc.2)
  | _, _, _, _ => t

/-- convert_all_units_csv (3_convert_all_units_csv.py, lines 316-374), the
in-memory part: apply in order turbidity, chlorophyll (numeric identity),
conductivity, coordinates (pass-through) and the TEOS-10 oxygen
conversion.  The script identifies all variables once up front; since
identification reads only the header and no conversion changes a column
name, each step re-identifying its variables is equivalent. -/
def convertAllUnits (g : Gsw) (t : Table) : Table :=
  applyOxy g (applyCndc (applyTurb t))

/-! ### 2_merge_mission_data_csv.py: filename numbering and merge -/

/-- Value of a nonempty digit string (so leading zeros read as in `int`). -/
def digitsToNat (l : List Char) : ℕ :=
  l.foldl (fun acc c => 10 * acc + (c.toNat - 48)) 0

/-- Does `z` read as `(\d+)\.csv` over its whole extent: at least one digit
followed by the literal suffix ".csv" at the very end?  Returns the digit
group's value. -/
def zoneCsv (z : List Char) : Option ℕ :=
  let m := z.length
  if 5 ≤ m ∧ z.drop (m - 4) = ".csv".toList ∧ (z.take (m - 4)).all Char.isDigit
  then some (digitsToNat (z.take (m - 4)))
  else none

/-- One `re.search` step for a pattern `tok(\d+)\.csv$`: try the pattern
anchored at the current position. -/
def tokDigitsCsvAt (tok s : List Char) : Option ℕ :=
  if tok.isPrefixOf s then zoneCsv (s.drop tok.length) else none

/-- `re.search` for `tok(\d+)\.csv$` (tok a literal such as "mission_",
"_" or "."): leftmost position where the token is followed by digits
running to a final ".csv". -/
def matchTokDigitsCsv (tok : List Char) : List Char → Option ℕ
  | [] => none
  | c :: rest =>
    match tokDigitsCsvAt tok (c :: rest) with
    | some n => some n
    | none => matchTokDigitsCsv tok rest

/-- `re.search` for `(\d+)\.csv$`: the maximal trailing digit run before a
final ".csv" (leftmost match start plus greedy `\d+`). -/
def matchDigitsCsv (s : List Char) : Option ℕ :=
  let r := s.reverse
  if (".csv".toList.reverse).isPrefixOf r then
    let ds := (r.drop 4).takeWhile Char.isDigit
    if ds.isEmpty then none else some (digitsToNat ds.reverse)
  else none

/-- `re.search` for an unanchored `tok(\d+)` (tok = ".sub." or ".raw."):
leftmost occurrence of the token followed by at least one digit; the group
is the maximal digit run there. -/
def matchTokDigits (tok : List Char) : List Char → Option ℕ
  | [] => none
  | c :: rest =>
    match
      (if tok.isPrefixOf (c :: rest) then
        (let ds := ((c :: rest).drop tok.length).takeWhile Char.isDigit
         if ds.isEmpty then none else some (digitsToNat ds))
       else none) with
    | some n => some n
    | none => matchTokDigits tok rest

/-- extract_file_number (2_merge_mission_data_csv.py, lines 15-35): the six
patterns tried in priority order, 0 when none matches. -/
def extract_file_number (filename : String) : ℕ :=
  let s := filename.toList
  ((matchTokDigitsCsv "mission_".toList s) <|>
   (matchTokDigitsCsv "_".toList s) <|>
   (matchTokDigitsCsv ".".toList s) <|>
   (matchDigitsCsv s) <|>
   (matchTokDigits ".sub.".toList s) <|>
   (matchTokDigits ".raw.".toList s)).getD 0

/-- Insert `a` into a sorted list before the first element `b` with
`le a b`. -/
def oInsert (le : α → α → Bool) (a : α) : List α → List α
  | [] => [a]
  | b :: l => if le a b then a :: b :: l else b :: oInsert le a l

/-- Stable ascending insertion sort; Python's stable `list.sort(key=…)`
produces the same ordering for a total preorder on keys. -/
def iSort (le : α → α → Bool) : List α → List α
  | [] => []
  | a :: l => oInsert le a (iSort le l)

/-- The merge's sort key (line 143): ascending numeric file number. -/
def fileLE (a b : String × Table) : Bool :=
  decide (extract_file_number a.1 ≤ extract_file_number b.1)

/-- The traceability columns added to every merged row (lines 188-191). -/
def provNames : List String := ["source_file", "file_number", "merge_position"]

/-- The column names a merged chunk carries: the file's own plus the
traceability columns. -/
def provCols (f : String × Table) : List String := f.2.cols ++ provNames

/-- One row of file `f` after the traceability columns were appended
(`merge_position` is the file's 1-based position in the sorted list). -/
def provRow (f : String × Table) (pos : ℕ) (r : List Value) : List Value :=
  r ++ [Value.str f.1, Value.num ((extract_file_number f.1 : ℚ)), Value.num ((pos : ℚ))]

/-- Keep the first occurrence of each name (pandas' column union order in
`pd.concat(..., sort=False)`). -/
def dedupKeepFirst : List String → List String
  | [] => []
  | c :: l => c :: (dedupKeepFirst l).filter (fun x => x != c)

/-- Align a row, given with its own header, to the merged header, filling
absent columns with NaN (pandas concat alignment). -/
def alignRow (cols rowCols : List String) (r : List Value) : List Value :=
  cols.map (fun c =>
    match rowCols.findIdx? (· == c) with
    | some k => r.getD k .missing
    | none => .missing)

/-- The time columns probed after concatenation (line 222). -/
def timeNames : List String := ["time", "timestamp", "PLD_REALTIMECLOCK", "TIME"]

/-- Cell order used by the temporal sort: missing cells last
(pandas `sort_values` default `na_position='last'`), numbers by value,
strings lexicographically. -/
def valLE : Value → Value → Bool
  | _, .missing => true
  | .missing, _ => false
  | .num x, .num y => decide (x ≤ y)
  | .str x, .str y => decide (x < y) || decide (x = y)
  | _, _ => true

/-- merge_csv_files (2_merge_mission_data_csv.py, lines 141-237), the
in-memory part after file discovery: sort the input files by their numeric
suffix, drop empty ones (skipped with `continue`), append the traceability
columns, concatenate with pandas column alignment, and re-sort by the
first recognised time column when one is present.  `none` models the
`return None` when no file loads.  The temporal re-sort is modelled with
the same stable sort; the script's `sort_values` leaves the order of
equal timestamps unspecified, and no theorem below depends on it. -/
def merge_csv_files (files : List (String × Table)) : Option Table :=
  let sorted := iSort fileLE files
  let chunks := sorted.enum.filter (fun p => !p.2.2.rows.isEmpty)
  if chunks.isEmpty then none
  else
    let mergedCols := dedupKeepFirst (chunks.flatMap (fun p => provCols p.2))
    let rows := chunks.flatMap (fun p =>
      p.2.2.rows.map (fun r => alignRow mergedCols (provCols p.2) (provRow p.2 (p.1 + 1) r)))
    let rows2 :=
      match timeNames.find? (fun c => mergedCols.contains c) with
      | some c =>
        match mergedCols.findIdx? (· == c) with
        | some i => iSort (fun r1 r2 => valLE (r1.getD i .missing) (r2.getD i .missing)) rows
        | none => rows
      | none => rows
    some ⟨mergedCols, rows2⟩

/-! ### 4_rename_variables_csv.py: the renaming stage -/

/-- The fixed native-to-standard mapping (4_rename_variables_csv.py,
lines 79-90). -/
def variable_mapping : List (String × String) :=
  [("PLD_REALTIMECLOCK", "TIME"), ("LEGATO_CODA_DO", "DOXY"),
   ("FLBBCD_BB_700_SCALED", "TURB"), ("FLBBCD_CHL_SCALED", "CHLA"),
   ("LEGATO_CONDUCTIVITY", "CNDC"), ("LEGATO_TEMPERATURE", "TEMP"),
   ("LEGATO_PRESSURE", "PRES"), ("NAV_DEPTH", "DEPTH"),
   ("NAV_LATITUDE", "LATITUDE"), ("NAV_LONGITUDE", "LONGITUDE")]

/-- `df.rename(columns=m)`: every header entry is sent through the mapping,
names outside it pass unchanged. -/
def renameCols (m : List (String × String)) (cols : List String) : List String :=
  cols.map (fun c =>
    match m.find? (fun p => p.1 == c) with
    | some p => p.2
    | none => c)

/-- rename_variables_csv (4_rename_variables_csv.py, lines 117-191), the
in-memory part: restrict the mapping to the columns present, give up
(`return`, writing nothing) when none is present, otherwise rename and
write the result — with no check against colliding output names. -/
def rename_variables_csv (t : Table) : Option Table :=
  let present := variable_mapping.filter (fun p => t.cols.contains p.1)
  if present.isEmpty then none
  else some ⟨renameCols present t.cols, t.rows⟩

/-- Modelled from the spec: the repository contains no DDMM.MMMM decoder
(execute_pipeline.py records that `decimal_to_dms()` was removed); this is
the §4.2 algorithm in the spec's words, `degrees = floor(value / 100)`,
`minutes = value - degrees*100`, `decimal_degrees = degrees + minutes/60`,
stated only to compare the spec's claimed conversion with the code. -/
def ddmm_to_decimal (v : ℚ) : ℚ :=
  let degrees : ℚ := ⌊v / 100⌋
  degrees + (v - degrees * 100) / 60

/-! ### Library lemmas about the embedding's list combinators -/

theorem mapOpt_length {α β : Type} {f : α → Option β} :
    ∀ {l : List α} {l' : List β}, mapOpt f l = some l' → l'.length = l.length := by
  intro l
  induction l with
  | nil => intro l' h; simp [mapOpt] at h; simp [h]
  | cons a l ih =>
    intro l' h
    simp only [mapOpt] at h
    cases hfa : f a <;> rw [hfa] at h
    · exact absurd h (by simp)
    · cases hml : mapOpt f l <;> rw [hml] at h
      · exact absurd h (by simp)
      · injection h with h'
        subst h'
        simp [ih hml]

theorem mapOpt_getElem? {α β : Type} {f : α → Option β} :
    ∀ {l : List α} {l' : List β}, mapOpt f l = some l' →
    ∀ i : ℕ, l'[i]? = l[i]?.bind f := by
  intro l
  induction l with
  | nil => intro l' h i; simp [mapOpt] at h; simp [h]
  | cons a l ih =>
    intro l' h i
    simp only [mapOpt] at h
    cases hfa : f a <;> rw [hfa] at h
    · exact absurd h (by simp)
    · cases hml : mapOpt f l <;> rw [hml] at h
      · exact absurd h (by simp)
      · injection h with h'
        subst h'
        cases i with
        | zero => simp [hfa]
        | succ i => simpa using ih hml i

theorem mapOpt_eq_none {α β : Type} {f : α → Option β} {a : α} :
    ∀ {l : List α}, a ∈ l → f a = none → mapOpt f l = none := by
  intro l
  induction l with
  | nil => intro h; cases h
  | cons b l ih =>
    intro hmem hfa
    rcases List.mem_cons.1 hmem with rfl | hmem
    · simp [mapOpt, hfa]
    · cases hfb : f b <;> simp [mapOpt, hfb, ih hmem hfa]

theorem mapOpt_isSome {α β : Type} {f : α → Option β} :
    ∀ {l : List α}, (∀ a ∈ l, (f a).isSome) → ∃ l', mapOpt f l = some l' := by
  intro l
  induction l with
  | nil => intro _; exact ⟨[], rfl⟩
  | cons a l ih =>
    intro h
    rcases Option.isSome_iff_exists.1 (h a (List.mem_cons_self a l)) with ⟨b, hb⟩
    rcases ih (fun x hx => h x (List.mem_cons_of_mem a hx)) with ⟨l', hl⟩
    exact ⟨b :: l', by simp [mapOpt, hb, hl]⟩

theorem zip4_getElem? {α β γ δ : Type} :
    ∀ {as : List α} {bs : List β} {cs : List γ} {ds : List δ} {i : ℕ}
      {a : α} {b : β} {c : γ} {d : δ},
      as[i]? = some a → bs[i]? = some b → cs[i]? = some c → ds[i]? = some d →
      (zip4 as bs cs ds)[i]? = some (a, b, c, d) := by
  intro as
  induction as with
  | nil => intro _ _ _ i _ _ _ _ h; simp at h
  | cons a' as ih =>
    intro bs cs ds i a b c d ha hb hc hd
    cases bs with
    | nil => simp at hb
    | cons b' bs =>
      cases cs with
      | nil => simp at hc
      | cons c' cs =>
        cases ds with
        | nil => simp at hd
        | cons d' ds =>
          cases i with
          | zero => simp_all [zip4]
          | succ i => simp_all [zip4, ih]

theorem mem_dedupKeepFirst {x : String} :
    ∀ {l : List String}, x ∈ dedupKeepFirst l ↔ x ∈ l := by
  intro l
  induction l with
  | nil => simp [dedupKeepFirst]
  | cons c l ih =>
    simp only [dedupKeepFirst, List.mem_cons, List.mem_filter]
    constructor
    · rintro (rfl | ⟨hx, _⟩)
      · exact Or.inl rfl
      · exact Or.inr (ih.1 hx)
    · rintro (rfl | hx)
      · exact Or.inl rfl
      · by_cases hxc : x = c
        · exact Or.inl hxc
        · exact Or.inr ⟨ih.2 hx, by simp [hxc]⟩

theorem mem_oInsert {α : Type} {le : α → α → Bool} {a x : α} :
    ∀ {l : List α}, x ∈ oInsert le a l ↔ x = a ∨ x ∈ l := by
  intro l
  induction l with
  | nil => simp [oInsert]
  | cons b l ih =>
    simp only [oInsert]
    by_cases h : le a b = true
    · simp [h]
    · simp only [if_neg h, List.mem_cons, ih]
      tauto

theorem pairwise_oInsert {α : Type} {le : α → α → Bool}
    (htot : ∀ a b, le a b || le b a)
    (htrans : ∀ a b c, le a b = true → le b c = true → le a c = true)
    (a : α) :
    ∀ {l : List α}, l.Pairwise (fun x y => le x y = true) →
      (oInsert le a l).Pairwise (fun x y => le x y = true) := by
  intro l
  induction l with
  | nil => intro _; simp [oInsert]
  | cons b l ih =>
    intro h
    rcases List.pairwise_cons.1 h with ⟨hb, hl⟩
    by_cases hab : le a b = true
    · simp only [oInsert, if_pos hab]
      refine List.pairwise_cons.2 ⟨?_, h⟩
      intro x hx
      rcases List.mem_cons.1 hx with rfl | hx
      · exact hab
      · exact htrans a b x hab (hb x hx)
    · simp only [oInsert, if_neg hab]
      refine List.pairwise_cons.2 ⟨?_, ih hl⟩
      intro x hx
      rcases mem_oInsert.1 hx with hxa | hx
      · rw [hxa]
        rcases Bool.or_eq_true_iff.1 (htot a b) with h1 | h1
        · exact absurd h1 hab
        · exact h1
      · exact hb x hx

theorem pairwise_iSort {α : Type} {le : α → α → Bool}
    (htot : ∀ a b, le a b || le b a)
    (htrans : ∀ a b c, le a b = true → le b c = true → le a c = true) :
    ∀ l : List α, (iSort le l).Pairwise (fun x y => le x y = true) := by
  intro l
  induction l with
  | nil => simp [iSort]
  | cons a l ih => exact pairwise_oInsert htot htrans a ih

/-! ### Lemmas about tables and the conversion stage -/

theorem setColQ_cols (t : Table) (c : String) (vs : Col) :
    (t.setColQ c vs).cols = t.cols := by
  unfold Table.setColQ
  cases t.cols.findIdx? (· == c) <;> rfl

theorem setColQ_rows_length (t : Table) (c : String) (vs : Col) :
    (t.setColQ c vs).rows.length = t.rows.length := by
  unfold Table.setColQ
  cases t.cols.findIdx? (· == c) <;> simp

theorem getColQ_setColQ_ne (t : Table) (c c' : String) (vs : Col) (hne : c ≠ c') :
    (t.setColQ c vs).getColQ c' = t.getColQ c' := by
  unfold Table.setColQ Table.getColQ
  cases hc : t.cols.findIdx? (· == c) with
  | none => rfl
  | some i =>
    simp only
    cases hc' : t.cols.findIdx? (· == c') with
    | none => rfl
    | some i' =>
      simp only
      have hi : t.cols[i]? = some c := by
        rcases List.findIdx?_eq_some_iff_getElem.1 hc with ⟨hlt, hp, _⟩
        simp only [List.getElem?_eq_getElem hlt]
        exact congrArg some (by simpa using hp)
      have hi' : t.cols[i']? = some c' := by
        rcases List.findIdx?_eq_some_iff_getElem.1 hc' with ⟨hlt, hp, _⟩
        simp only [List.getElem?_eq_getElem hlt]
        exact congrArg some (by simpa using hp)
      have hii' : i ≠ i' := by
        intro h
        rw [h, hi'] at hi
        exact hne (Option.some.inj hi).symm
      apply List.ext_getElem?
      intro n
      simp only [List.getElem?_map, List.getElem?_mapIdx]
      cases t.rows[n]? with
      | none => rfl
      | some r =>
        simp only [Option.map_some']
        congr 1
        simp only [List.getD_eq_getElem?_getD, List.getElem?_set_ne hii']

theorem applyTurb_cols (t : Table) : (applyTurb t).cols = t.cols := by
  unfold applyTurb
  cases findVar t turbidityNames <;> simp [setColQ_cols]

theorem applyCndc_cols (t : Table) : (applyCndc t).cols = t.cols := by
  unfold applyCndc
  cases findVar t conductivityNames <;> simp [setColQ_cols]

theorem applyOxy_cols (g : Gsw) (t : Table) : (applyOxy g t).cols = t.cols := by
  unfold applyOxy
  cases findVar t oxygenNames <;> cases findVar t temperatureNames <;>
    cases findVar t conductivityNames <;> cases findVar t pressureNames <;>
    simp [setColQ_cols]

theorem convertAllUnits_cols (g : Gsw) (t : Table) :
    (convertAllUnits g t).cols = t.cols := by
  unfold convertAllUnits
  rw [applyOxy_cols, applyCndc_cols, applyTurb_cols]

theorem applyTurb_rows_length (t : Table) :
    (applyTurb t).rows.length = t.rows.length := by
  unfold applyTurb
  cases findVar t turbidityNames <;> simp [setColQ_rows_length]

theorem applyCndc_rows_length (t : Table) :
    (applyCndc t).rows.length = t.rows.length := by
  unfold applyCndc
  cases findVar t conductivityNames <;> simp [setColQ_rows_length]

theorem applyOxy_rows_length (g : Gsw) (t : Table) :
    (applyOxy g t).rows.length = t.rows.length := by
  unfold applyOxy
  cases findVar t oxygenNames <;> cases findVar t temperatureNames <;>
    cases findVar t conductivityNames <;> cases findVar t pressureNames <;>
    simp [setColQ_rows_length]

theorem convertAllUnits_rows_length (g : Gsw) (t : Table) :
    (convertAllUnits g t).rows.length = t.rows.length := by
  unfold convertAllUnits
  rw [applyOxy_rows_length, applyCndc_rows_length, applyTurb_rows_length]

/-! ### Concrete black-box instantiations of the TEOS-10 library -/

/-- A total instantiation with constant density 500 (conductivity is passed
through the salinity chain, density ignores it). -/
def G0 : Gsw :=
  ⟨fun c _ _ => some c, fun sp _ _ _ => some sp, fun _ t _ => some t,
   fun _ _ _ => some 500⟩

/-- A total instantiation whose density equals the latitude handed to
`SA_from_SP`: it makes the geographic position fed to the library
observable in the converted oxygen values. -/
def Gc : Gsw :=
  ⟨fun c _ _ => some c, fun _ _ _ lat => some lat, fun _ t _ => some t,
   fun sa _ _ => some sa⟩

/-- An instantiation whose `SP_from_C` raises (models a library failure). -/
def Gfail : Gsw :=
  ⟨fun _ _ _ => none, fun sp _ _ _ => some sp, fun _ t _ => some t,
   fun _ _ _ => some 1⟩

/-! ### The claims -/

/-- C8: for every non-missing turbidity value x the conversion outputs
exactly x * 366.70, the rescale is invertible (dividing back by 366.70
recovers x exactly), and every missing value stays missing. -/
theorem convert_turbidity_exact (tc : Col) (i : ℕ) :
    (∀ x : ℚ, tc[i]? = some (some x) →
      (convert_turbidity_column tc)[i]? = some (some (x * 366.70)) ∧
      x * 366.70 / 366.70 = x) ∧
    (tc[i]? = some none → (convert_turbidity_column tc)[i]? = some none) := by
  unfold convert_turbidity_column
  by_cases hg : tc.countP (·.isSome) = 0
  · rw [if_pos hg]
    constructor
    · intro x hx
      exfalso
      have hmem : some x ∈ tc := List.getElem?_mem hx
      have := List.countP_eq_zero.1 hg (some x) hmem
      simp at this
    · intro hx; exact hx
  · rw [if_neg hg]
    constructor
    · intro x hx
      refine ⟨?_, ?_⟩
      · simp [List.getElem?_map, hx]
      · rw [mul_div_assoc, div_self (by norm_num : (366.70 : ℚ) ≠ 0), mul_one]
    · intro hx
      simp [List.getElem?_map, hx]

/-- C8 witness: the theorem applied to the column [8, NaN] at both rows. -/
theorem convert_turbidity_exact_witness :
    ((convert_turbidity_column [some 8, none])[0]? =
        some (some ((8 : ℚ) * 366.70)) ∧
      (8 : ℚ) * 366.70 / 366.70 = 8) ∧
    (convert_turbidity_column [some 8, none])[1]? = some none := by
  refine ⟨(convert_turbidity_exact [some 8, none] 0).1 8 rfl, ?_⟩
  exact (convert_turbidity_exact [some 8, none] 1).2 rfl

/-- C4: the failing input.  A table that already carries a TIME column next
to PLD_REALTIMECLOCK is renamed to a table with two TIME columns and is
still written out (the script performs no collision check), against the
spec's demand to abort before writing. -/
theorem rename_collision_written :
    rename_variables_csv ⟨["PLD_REALTIMECLOCK", "TIME"], [[Value.num 1, Value.num 2]]⟩ =
      some ⟨["TIME", "TIME"], [[Value.num 1, Value.num 2]]⟩ ∧
    ¬ (["TIME", "TIME"] : List String).Nodup := by
  constructor
  · rfl
  · decide

/-- C1 counterexample: a single row whose conductivity is not positive
(-1) and whose coordinate columns are entirely absent is nonetheless
converted (the completeness mask of lines 128-133 checks only that oxygen,
temperature, conductivity and pressure are non-missing), so its oxygen
value does not retain its pre-conversion value 1. -/
theorem oxygen_converted_despite_invalid_covariables :
    convert_oxygen_column G0 [some 1] [some 1] [some (-1)] [some 0] none none =
      [some 2] ∧
    ([some (2 : ℚ)] : Col) ≠ [some 1] := by
  constructor
  · simp only [convert_oxygen_column, zip4, completeB, meanCoords, mapOpt, convRow,
      teosRho, G0, List.countP_cons, List.countP_nil, Option.isSome_some,
      Option.some_bind, Option.map_some', if_true, if_false]
    norm_num
  · simp only [ne_eq, List.cons.injEq, Option.some.injEq, and_true]
    norm_num

/-- C3 counterexample: the coordinate stage leaves the packed-looking value
2838.767 untouched, and the retained value is nowhere near the claimed
decimal conversion 28 + 38.767/60 (the spec's §4.2 formula, which the
repository does not implement). -/
theorem coordinates_not_decoded :
    convert_coordinates (some [some 2838.767]) (some [some 1543.21]) =
      (some [some 2838.767], some [some 1543.21]) ∧
    ddmm_to_decimal 2838.767 = 28 + 38.767 / 60 ∧
    ¬ |(2838.767 : ℚ) - ddmm_to_decimal 2838.767| < 1 / 1000000 := by
  have h : ddmm_to_decimal 2838.767 = 28 + 38.767 / 60 := by
    unfold ddmm_to_decimal
    norm_num
  refine ⟨rfl, h, ?_⟩
  rw [h, abs_of_pos (by norm_num)]
  norm_num

/-- C1 (amended): the oxygen conversion's row mask is exactly "oxygen,
temperature, conductivity and pressure all present"; any row missing one
of those four keeps its oxygen value unchanged (coordinate validity and
conductivity sign play no part in the per-row mask). -/
theorem convert_oxygen_incomplete_identity (g : Gsw) (ox temp cond pres : Col)
    (latc lonc : Option Col) (i : ℕ) (o t c p : Option ℚ)
    (ho : ox[i]? = some o) (ht : temp[i]? = some t)
    (hc : cond[i]? = some c) (hp : pres[i]? = some p)
    (hmiss : o = none ∨ t = none ∨ c = none ∨ p = none) :
    (convert_oxygen_column g ox temp cond pres latc lonc)[i]? = some o := by
  have hrow : (zip4 ox temp cond pres)[i]? = some (o, t, c, p) :=
    zip4_getElem? ho ht hc hp
  have hcomp : completeB (o, t, c, p) = false := by
    rcases hmiss with rfl | rfl | rfl | rfl <;> simp [completeB]
  unfold convert_oxygen_column
  by_cases hg : (zip4 ox temp cond pres).countP completeB = 0
  · rw [if_pos hg]; exact ho
  · rw [if_neg hg]
    cases hm : mapOpt
        (convRow g (meanCoords latc lonc).1 (meanCoords latc lonc).2)
        (zip4 ox temp cond pres) with
    | none => exact ho
    | some out =>
      have hgi := mapOpt_getElem? hm i
      rw [hrow] at hgi
      simp only [Option.some_bind, convRow, hcomp, Bool.false_eq_true, if_false] at hgi
      exact hgi

/-- C1 witness: a row with missing temperature keeps its oxygen value 7. -/
theorem convert_oxygen_incomplete_identity_witness :
    (convert_oxygen_column G0 [some 7] [none] [some 3] [some 4] none none)[0]? =
      some (some 7) :=
  convert_oxygen_incomplete_identity G0 [some 7] [none] [some 3] [some 4] none none 0
    (some 7) none (some 3) (some 4) rfl rfl rfl rfl (Or.inr (Or.inl rfl))

/-- C2 (amended): for a row with oxygen, temperature, conductivity and
pressure all present, and a run on which the TEOS-10 library does not
raise, the converted value is oxygen * 1000 / rho where rho is the
TEOS-10 chain SP-from-C, SA-from-SP, CT-from-t, rho evaluated at the
row's (temperature, conductivity, pressure) and at the single run-level
mean position of 4.3/C9 — not at the row's own coordinates. -/
theorem convert_oxygen_formula (g : Gsw) (ox temp cond pres : Col)
    (latc lonc : Option Col) (i : ℕ) (o t c p : ℚ)
    (ho : ox[i]? = some (some o)) (ht : temp[i]? = some (some t))
    (hc : cond[i]? = some (some c)) (hp : pres[i]? = some (some p))
    (hok : ∀ r ∈ zip4 ox temp cond pres, completeB r →
      (teosRho g (meanCoords latc lonc).1 (meanCoords latc lonc).2
        (r.2.1.getD 0) (r.2.2.1.getD 0) (r.2.2.2.getD 0)).isSome) :
    ∃ rho : ℚ,
      teosRho g (meanCoords latc lonc).1 (meanCoords latc lonc).2 t c p = some rho ∧
      (convert_oxygen_column g ox temp cond pres latc lonc)[i]? =
        some (some (o * 1000 / rho)) := by
  have hrow : (zip4 ox temp cond pres)[i]? = some (some o, some t, some c, some p) :=
    zip4_getElem? ho ht hc hp
  have hmem := List.getElem?_mem hrow
  have hcomp : completeB (some o, some t, some c, some p) = true := by simp [completeB]
  have hg : ¬ (zip4 ox temp cond pres).countP completeB = 0 := by
    intro h0
    have := List.countP_eq_zero.1 h0 _ hmem
    simp [hcomp] at this
  have hsome := hok _ hmem hcomp
  simp only at hsome
  rcases Option.isSome_iff_exists.1 hsome with ⟨rho, hrho⟩
  have hall : ∀ r ∈ zip4 ox temp cond pres,
      (convRow g (meanCoords latc lonc).1 (meanCoords latc lonc).2 r).isSome := by
    intro r hr
    unfold convRow
    by_cases hcr : completeB r
    · rw [if_pos hcr]
      rcases Option.isSome_iff_exists.1 (hok r hr hcr) with ⟨x, hx⟩
      simp [hx]
    · rw [if_neg hcr]; simp
  rcases mapOpt_isSome hall with ⟨out, hout⟩
  refine ⟨rho, by simpa using hrho, ?_⟩
  unfold convert_oxygen_column
  rw [if_neg hg, hout]
  have hgi := mapOpt_getElem? hout i
  rw [hrow] at hgi
  simp only [Option.some_bind, convRow, hcomp, if_true] at hgi
  rw [hgi]
  simp only [Option.getD_some] at hrho ⊢
  simp [hrho]

/-- C2 witness: the theorem applied to a complete single-row table under
the total library instantiation G0 of constant density 500. -/
theorem convert_oxygen_formula_witness :
    (convert_oxygen_column G0 [some 2] [some 3] [some 4] [some 5] none none)[0]? =
      some (some ((2 : ℚ) * 1000 / 500)) := by
  obtain ⟨rho, hrho, hout⟩ :=
    convert_oxygen_formula G0 [some 2] [some 3] [some 4] [some 5] none none 0 2 3 4 5
      rfl rfl rfl rfl (by intro r hr hcr; simp [zip4] at hr; subst hr; rfl)
  have h500 : teosRho G0 (meanCoords none none).1 (meanCoords none none).2 3 4 5 =
      some 500 := rfl
  obtain rfl : rho = 500 := Option.some.inj (hrho.symm.trans h500)
  exact hout

/-- C2 counterexample: with two rows at latitudes 100 and 300 the library
is fed the single mean latitude 200 (density 200 under Gc), so both rows
convert to 1000/200 = 5; the claim's row-wise formula would give row 0 the
value 1000/100 = 10 instead. -/
theorem oxygen_uses_mean_not_row_coordinates :
    convert_oxygen_column Gc [some 1, some 1] [some 1, some 1] [some 1, some 1]
        [some 1, some 1] (some [some 100, some 300]) (some [some 0, some 0]) =
      [some 5, some 5] ∧
    (1 : ℚ) * 1000 / ((teosRho Gc 100 0 1 1 1).getD 0) = 10 ∧
    (5 : ℚ) ≠ 10 := by
  refine ⟨?_, ?_, by norm_num⟩
  · have hmean : meanQ [some 100, some 300] = 200 := by
      unfold meanQ
      norm_num [List.filterMap]
    simp only [convert_oxygen_column, zip4, completeB, mapOpt, convRow, teosRho, Gc,
      meanCoords, countJoint, List.zip, List.zipWith, List.filter, Option.isSome_some,
      Bool.and_self, List.length_cons, List.length_nil, List.countP_cons,
      List.countP_nil, Option.some_bind, Option.map_some', hmean]
    norm_num
  · have h : teosRho Gc 100 0 1 1 1 = some 100 := rfl
    rw [h]
    norm_num

/-- C5: if the TEOS-10 library raises on any complete row of the run, the
whole oxygen column is returned exactly as it was (no partially converted
column), and the conversion stage still returns a table (same header) so
the rest of the pipeline proceeds. -/
theorem convert_oxygen_failure_preserves_column (g : Gsw) (ox temp cond pres : Col)
    (latc lonc : Option Col) (r : Option ℚ × Option ℚ × Option ℚ × Option ℚ)
    (hr : r ∈ zip4 ox temp cond pres) (hcomp : completeB r = true)
    (hfail : teosRho g (meanCoords latc lonc).1 (meanCoords latc lonc).2
      (r.2.1.getD 0) (r.2.2.1.getD 0) (r.2.2.2.getD 0) = none) :
    convert_oxygen_column g ox temp cond pres latc lonc = ox ∧
    ∀ t : Table, (convertAllUnits g t).cols = t.cols := by
  constructor
  · have hcr : convRow g (meanCoords latc lonc).1 (meanCoords latc lonc).2 r = none := by
      unfold convRow
      rw [if_pos hcomp, hfail]
      rfl
    unfold convert_oxygen_column
    by_cases hg : (zip4 ox temp cond pres).countP completeB = 0
    · rw [if_pos hg]
    · rw [if_neg hg, mapOpt_eq_none hr hcr]
  · exact convertAllUnits_cols g

/-- C5 witness: the theorem applied to a complete single-row table with the
raising library Gfail: the column comes back as [1]. -/
theorem convert_oxygen_failure_preserves_column_witness :
    convert_oxygen_column Gfail [some 1] [some 1] [some 1] [some 1] none none =
      [some 1] ∧
    ∀ t : Table, (convertAllUnits Gfail t).cols = t.cols :=
  convert_oxygen_failure_preserves_column Gfail [some 1] [some 1] [some 1] [some 1]
    none none (some 1, some 1, some 1, some 1) (by simp [zip4]) rfl rfl

theorem meanCoords_some (la lo : Col) :
    meanCoords (some la) (some lo) =
      if 0 < countJoint la lo then (meanQ la, meanQ lo) else (27.8, -15.5) := rfl

/-- C9: the oxygen conversion reads the coordinate columns only through the
single run-level pair meanCoords; that pair is the hardcoded default
(27.8, -15.5) when either coordinate column is absent or no row carries
both coordinates, and the pair of the column means when some row does. -/
theorem oxygen_single_run_position (g : Gsw) (ox temp cond pres : Col) :
    (∀ latc lonc latc' lonc' : Option Col,
      meanCoords latc lonc = meanCoords latc' lonc' →
      convert_oxygen_column g ox temp cond pres latc lonc =
        convert_oxygen_column g ox temp cond pres latc' lonc') ∧
    (∀ lonc : Option Col, meanCoords none lonc = (27.8, -15.5)) ∧
    (∀ latc : Option Col, meanCoords latc none = (27.8, -15.5)) ∧
    (∀ la lo : Col, countJoint la lo = 0 →
      meanCoords (some la) (some lo) = (27.8, -15.5)) ∧
    (∀ la lo : Col, 0 < countJoint la lo →
      meanCoords (some la) (some lo) = (meanQ la, meanQ lo)) := by
  refine ⟨?_, ?_, ?_, ?_, ?_⟩
  · intro latc lonc latc' lonc' h
    unfold convert_oxygen_column
    rw [h]
  · intro lonc; cases lonc <;> rfl
  · intro latc; cases latc <;> rfl
  · intro la lo h
    rw [meanCoords_some, if_neg (by simp [h])]
  · intro la lo h
    rw [meanCoords_some, if_pos h]

/-- C9 witness: two coordinate-column pairs with the same means give the
same converted column, and the defaults hold at concrete columns. -/
theorem oxygen_single_run_position_witness :
    convert_oxygen_column G0 [some 1] [some 1] [some 1] [some 1]
        (some [some 3, none]) (some [some 4, none]) =
      convert_oxygen_column G0 [some 1] [some 1] [some 1] [some 1]
        (some [some 3]) (some [some 4]) ∧
    meanCoords none (some [some 4]) = (27.8, -15.5) := by
  constructor
  · refine (oxygen_single_run_position G0 [some 1] [some 1] [some 1] [some 1]).1
      (some [some 3, none]) (some [some 4, none]) (some [some 3]) (some [some 4]) ?_
    have h1 : meanQ [some 3, none] = meanQ [some 3] := by
      unfold meanQ
      simp [List.filterMap]
    have h2 : meanQ [some 4, none] = meanQ [some 4] := by
      unfold meanQ
      simp [List.filterMap]
    rw [meanCoords_some, meanCoords_some,
      if_pos (by simp [countJoint, List.zip, List.zipWith, List.filter]),
      if_pos (by simp [countJoint, List.zip, List.zipWith, List.filter]), h1, h2]
  · exact (oxygen_single_run_position G0 [] [] [] []).2.1 (some [some 4])

theorem getColQ_applyTurb_ne (t : Table) (cn : String)
    (h : ∀ v ∈ turbidityNames, v ≠ cn) :
    (applyTurb t).getColQ cn = t.getColQ cn := by
  unfold applyTurb
  cases hv : findVar t turbidityNames with
  | none => rfl
  | some v =>
    exact getColQ_setColQ_ne t v cn _ (h v (List.mem_of_find?_eq_some hv))

theorem getColQ_applyCndc_ne (t : Table) (cn : String)
    (h : ∀ v ∈ conductivityNames, v ≠ cn) :
    (applyCndc t).getColQ cn = t.getColQ cn := by
  unfold applyCndc
  cases hv : findVar t conductivityNames with
  | none => rfl
  | some v =>
    exact getColQ_setColQ_ne t v cn _ (h v (List.mem_of_find?_eq_some hv))

theorem getColQ_applyOxy_ne (g : Gsw) (t : Table) (cn : String)
    (h : ∀ v ∈ oxygenNames, v ≠ cn) :
    (applyOxy g t).getColQ cn = t.getColQ cn := by
  unfold applyOxy
  cases ho : findVar t oxygenNames with
  | none => rfl
  | some oc =>
    cases ht : findVar t temperatureNames with
    | none => rfl
    | some tc =>
      cases hcn : findVar t conductivityNames with
      | none => rfl
      | some cc =>
        cases hp : findVar t pressureNames with
        | none => rfl
        | some pc =>
          exact getColQ_setColQ_ne t oc cn _ (h oc (List.mem_of_find?_eq_some ho))

/-- C3 (amended): the conversion stage passes every latitude/longitude
column through unchanged — the repository keeps coordinates in decimal
degrees and performs no DDMM.MMMM decoding (the decoder was removed, per
the pipeline notes in execute_pipeline.py). -/
theorem coordinates_pass_through (g : Gsw) (t : Table) (cn : String)
    (h : cn ∈ latitudeNames ∨ cn ∈ longitudeNames) :
    (convertAllUnits g t).getColQ cn = t.getColQ cn := by
  have hd : ∀ v ∈ turbidityNames ++ (conductivityNames ++ oxygenNames),
      ∀ w ∈ latitudeNames ++ longitudeNames, v ≠ w := by decide
  have hw : cn ∈ latitudeNames ++ longitudeNames := by
    rcases h with h | h
    · exact List.mem_append.2 (Or.inl h)
    · exact List.mem_append.2 (Or.inr h)
  unfold convertAllUnits
  rw [getColQ_applyOxy_ne g _ cn
        (fun v hv => hd v (List.mem_append.2 (Or.inr (List.mem_append.2 (Or.inr hv)))) cn hw),
      getColQ_applyCndc_ne _ cn
        (fun v hv => hd v (List.mem_append.2 (Or.inr (List.mem_append.2 (Or.inl hv)))) cn hw),
      getColQ_applyTurb_ne _ cn
        (fun v hv => hd v (List.mem_append.2 (Or.inl hv)) cn hw)]

/-- C3 witness: a table whose LATITUDE column holds the packed-looking
value 2838.767 leaves the stage with that column untouched. -/
theorem coordinates_pass_through_witness :
    (convertAllUnits G0 ⟨["LATITUDE"], [[Value.num 2838.767]]⟩).getColQ ("LATITUDE") =
      Table.getColQ ⟨["LATITUDE"], [[Value.num 2838.767]]⟩ ("LATITUDE") :=
  coordinates_pass_through G0 ⟨["LATITUDE"], [[Value.num 2838.767]]⟩ ("LATITUDE")
    (Or.inl (by decide))

/-- C7: row count is preserved by the unit-conversion stage (each
conversion writes a same-length column back) and by the renaming stage
(which touches only the header). -/
theorem row_count_preserved :
    (∀ (g : Gsw) (t : Table), (convertAllUnits g t).rows.length = t.rows.length) ∧
    (∀ t t' : Table, rename_variables_csv t = some t' →
      t'.rows.length = t.rows.length) := by
  constructor
  · exact convertAllUnits_rows_length
  · intro t t' h
    simp only [rename_variables_csv] at h
    split at h
    · cases h
    · cases h
      rfl

/-- C7 witness: the theorem applied to concrete one-row tables through
both stages. -/
theorem row_count_preserved_witness :
    (convertAllUnits G0 ⟨["TEMP"], [[Value.num 1]]⟩).rows.length =
      (⟨["TEMP"], [[Value.num 1]]⟩ : Table).rows.length ∧
    (⟨["PRES"], [[Value.num 1]]⟩ : Table).rows.length =
      (⟨["LEGATO_PRESSURE"], [[Value.num 1]]⟩ : Table).rows.length :=
  ⟨row_count_preserved.1 G0 ⟨["TEMP"], [[Value.num 1]]⟩,
   row_count_preserved.2 ⟨["LEGATO_PRESSURE"], [[Value.num 1]]⟩
     ⟨["PRES"], [[Value.num 1]]⟩ (by rfl)⟩

/-- None of the six filename patterns of extract_file_number matches. -/
def noPatternMatch (f : String) : Bool :=
  (matchTokDigitsCsv "mission_".toList f.toList).isNone &&
  (matchTokDigitsCsv "_".toList f.toList).isNone &&
  (matchTokDigitsCsv ".".toList f.toList).isNone &&
  (matchDigitsCsv f.toList).isNone &&
  (matchTokDigits ".sub.".toList f.toList).isNone &&
  (matchTokDigits ".raw.".toList f.toList).isNone

/-- C10: a filename matching none of the recognised numeric patterns gets
the sort key 0 (the function is total, so nothing is raised), and the
merge's numeric sort is ascending on keys, so every key-0 file stands
before every positively numbered file: whatever precedes a key-0 file in
the sorted order has key 0 itself. -/
theorem extract_file_number_unmatched (f : String) (files : List (String × Table))
    (h : noPatternMatch f = true) :
    extract_file_number f = 0 ∧
    (iSort fileLE files).Pairwise
      (fun a b => extract_file_number a.1 ≤ extract_file_number b.1) ∧
    (∀ (i j : ℕ) (a b : String × Table), i < j →
      (iSort fileLE files)[i]? = some a → (iSort fileLE files)[j]? = some b →
      extract_file_number b.1 = 0 → extract_file_number a.1 = 0) := by
  have htot : ∀ a b : String × Table, fileLE a b || fileLE b a := by
    intro a b
    unfold fileLE
    rcases Nat.le_total (extract_file_number a.1) (extract_file_number b.1) with h1 | h1 <;>
      simp [h1]
  have htrans : ∀ a b c : String × Table,
      fileLE a b = true → fileLE b c = true → fileLE a c = true := by
    intro a b c h1 h2
    unfold fileLE at h1 h2 ⊢
    simp only [decide_eq_true_eq] at h1 h2 ⊢
    omega
  have hpair : (iSort fileLE files).Pairwise
      (fun a b => extract_file_number a.1 ≤ extract_file_number b.1) :=
    (pairwise_iSort htot htrans files).imp
      (fun hab => by simpa [fileLE] using hab)
  refine ⟨?_, hpair, ?_⟩
  · unfold noPatternMatch at h
    simp only [Bool.and_eq_true, Option.isNone_iff_eq_none] at h
    simp only [extract_file_number]
    rw [h.1.1.1.1.1, h.1.1.1.1.2, h.1.1.1.2, h.1.1.2, h.1.2, h.2]
    rfl
  · intro i j a b hij ha hb hb0
    obtain ⟨hi, hae⟩ := List.getElem?_eq_some_iff.1 ha
    obtain ⟨hj, hbe⟩ := List.getElem?_eq_some_iff.1 hb
    have hr := (List.pairwise_iff_getElem.1 hpair) i j hi hj hij
    rw [hae, hbe] at hr
    omega

/-- C10 witness: the patternless name "notes.txt" sorts with key 0 in
front of "mission_2.csv". -/
theorem extract_file_number_unmatched_witness :
    extract_file_number "notes.txt" = 0 ∧
    (iSort fileLE [(("notes.txt" : String), (⟨[], []⟩ : Table)),
        (("mission_2.csv" : String), (⟨[], []⟩ : Table))]).Pairwise
      (fun a b => extract_file_number a.1 ≤ extract_file_number b.1) ∧
    (∀ (i j : ℕ) (a b : String × Table), i < j →
      (iSort fileLE [(("notes.txt" : String), (⟨[], []⟩ : Table)),
        (("mission_2.csv" : String), (⟨[], []⟩ : Table))])[i]? = some a →
      (iSort fileLE [(("notes.txt" : String), (⟨[], []⟩ : Table)),
        (("mission_2.csv" : String), (⟨[], []⟩ : Table))])[j]? = some b →
      extract_file_number b.1 = 0 → extract_file_number a.1 = 0) :=
  extract_file_number_unmatched "notes.txt"
    [(("notes.txt" : String), (⟨[], []⟩ : Table)),
     (("mission_2.csv" : String), (⟨[], []⟩ : Table))] (by decide)

theorem timeNames_not_prov : ∀ cn ∈ timeNames, cn ∉ provNames := by decide

/-- C6 (amended): merging three nonempty files numbered 1, 2 and 10 —
presented here in the scrambled order 10, 1, 2, which lexical filename
order would also misorder — concatenates their rows in ascending numeric
order 1, 2, 10 with merge positions 1, 2, 3, provided the files carry no
recognised time column (otherwise the concatenation is re-sorted by it);
with 10 rows per file the merged table has exactly 30 rows, each aligned
to the merged header, which includes the three provenance columns. -/
theorem merge_numeric_order (f1 f2 f10 : String × Table)
    (h1 : extract_file_number f1.1 = 1) (h2 : extract_file_number f2.1 = 2)
    (h10 : extract_file_number f10.1 = 10)
    (hr1 : f1.2.rows.length = 10) (hr2 : f2.2.rows.length = 10)
    (hr10 : f10.2.rows.length = 10)
    (hnotime : ∀ cn ∈ timeNames, cn ∉ f1.2.cols ∧ cn ∉ f2.2.cols ∧ cn ∉ f10.2.cols) :
    ∃ T : Table, merge_csv_files [f10, f1, f2] = some T ∧
      T.cols = dedupKeepFirst (provCols f1 ++ (provCols f2 ++ provCols f10)) ∧
      (∀ cn ∈ provNames, cn ∈ T.cols) ∧
      T.rows =
        f1.2.rows.map (fun r => alignRow T.cols (provCols f1) (provRow f1 1 r)) ++
        (f2.2.rows.map (fun r => alignRow T.cols (provCols f2) (provRow f2 2 r)) ++
          f10.2.rows.map (fun r => alignRow T.cols (provCols f10) (provRow f10 3 r))) ∧
      T.rows.length = 30 := by
  have hsorted : iSort fileLE [f10, f1, f2] = [f1, f2, f10] := by
    simp [iSort, oInsert, fileLE, h1, h2, h10]
  have hne1 : f1.2.rows.isEmpty = false := by
    rw [List.isEmpty_eq_false]
    intro hnil
    rw [hnil] at hr1
    simp at hr1
  have hne2 : f2.2.rows.isEmpty = false := by
    rw [List.isEmpty_eq_false]
    intro hnil
    rw [hnil] at hr2
    simp at hr2
  have hne10 : f10.2.rows.isEmpty = false := by
    rw [List.isEmpty_eq_false]
    intro hnil
    rw [hnil] at hr10
    simp at hr10
  have hchunks : ([f1, f2, f10].enum.filter (fun p => !p.2.2.rows.isEmpty)) =
      [(0, f1), (1, f2), (2, f10)] := by
    simp [List.enum_cons, List.enumFrom, List.filter, hne1, hne2, hne10]
  set M : List String :=
    dedupKeepFirst (provCols f1 ++ (provCols f2 ++ provCols f10)) with hM
  have hMflat : dedupKeepFirst
      ([(0, f1), (1, f2), (2, f10)].flatMap (fun p => provCols p.2)) = M := by
    simp [List.flatMap, hM]
  have hmemM : ∀ cn, cn ∈ M ↔
      cn ∈ provCols f1 ∨ cn ∈ provCols f2 ∨ cn ∈ provCols f10 := by
    intro cn
    rw [hM, mem_dedupKeepFirst]
    simp [List.mem_append]
  have hfind : timeNames.find? (fun cn => M.contains cn) = none := by
    rw [List.find?_eq_none]
    intro cn hcn hcont
    have hmem : cn ∈ M := List.elem_iff.1 hcont
    have hn := hnotime cn hcn
    have hp := timeNames_not_prov cn hcn
    rcases (hmemM cn).1 hmem with hm | hm | hm <;>
      · unfold provCols at hm
        rcases List.mem_append.1 hm with hm' | hm'
        · tauto
        · exact hp hm'
  have hrows : [(0, f1), (1, f2), (2, f10)].flatMap
      (fun p => p.2.2.rows.map
        (fun r => alignRow M (provCols p.2) (provRow p.2 (p.1 + 1) r))) =
      f1.2.rows.map (fun r => alignRow M (provCols f1) (provRow f1 1 r)) ++
      (f2.2.rows.map (fun r => alignRow M (provCols f2) (provRow f2 2 r)) ++
        f10.2.rows.map (fun r => alignRow M (provCols f10) (provRow f10 3 r))) := by
    simp [List.flatMap]
  refine ⟨⟨M,
    f1.2.rows.map (fun r => alignRow M (provCols f1) (provRow f1 1 r)) ++
    (f2.2.rows.map (fun r => alignRow M (provCols f2) (provRow f2 2 r)) ++
      f10.2.rows.map (fun r => alignRow M (provCols f10) (provRow f10 3 r)))⟩,
    ?_, rfl, ?_, rfl, ?_⟩
  · simp only [merge_csv_files]
    rw [hsorted, hchunks]
    simp only [List.isEmpty_cons, Bool.false_eq_true, if_false, hMflat, hfind, hrows]
  · intro cn hcn
    exact (hmemM cn).2 (Or.inl (List.mem_append.2 (Or.inr hcn)))
  · simp [List.length_append, List.length_map, hr1, hr2, hr10]

/-- Witness file number 1: ten rows, no time column. -/
def wf1 : String × Table :=
  ("mission_1.csv", ⟨["A"], List.replicate 10 [Value.num 1]⟩)

/-- Witness file number 2: ten rows, no time column. -/
def wf2 : String × Table :=
  ("mission_2.csv", ⟨["A"], List.replicate 10 [Value.num 2]⟩)

/-- Witness file number 10: ten rows, no time column. -/
def wf10 : String × Table :=
  ("mission_10.csv", ⟨["A"], List.replicate 10 [Value.num 3]⟩)

/-- C6 witness: the theorem applied to three concrete 10-row files
numbered 1, 2 and 10 with no time column. -/
theorem merge_numeric_order_witness :
    ∃ T : Table, merge_csv_files [wf10, wf1, wf2] = some T ∧
      T.cols = dedupKeepFirst (provCols wf1 ++ (provCols wf2 ++ provCols wf10)) ∧
      (∀ cn ∈ provNames, cn ∈ T.cols) ∧
      T.rows =
        wf1.2.rows.map (fun r => alignRow T.cols (provCols wf1) (provRow wf1 1 r)) ++
        (wf2.2.rows.map (fun r => alignRow T.cols (provCols wf2) (provRow wf2 2 r)) ++
          wf10.2.rows.map (fun r => alignRow T.cols (provCols wf10) (provRow wf10 3 r))) ∧
      T.rows.length = 30 :=
  merge_numeric_order wf1 wf2 wf10 (by decide) (by decide) (by decide)
    (by decide) (by decide) (by decide) (by decide)

/-- Counterexample file number 1: TIME runs 20..29. -/
def cxF1 : String × Table :=
  ("mission_1.csv", ⟨["TIME"],
    [[Value.num 20], [Value.num 21], [Value.num 22], [Value.num 23], [Value.num 24],
     [Value.num 25], [Value.num 26], [Value.num 27], [Value.num 28], [Value.num 29]]⟩)

/-- Counterexample file number 2: TIME runs 0..9, earlier than file 1's. -/
def cxF2 : String × Table :=
  ("mission_2.csv", ⟨["TIME"],
    [[Value.num 0], [Value.num 1], [Value.num 2], [Value.num 3], [Value.num 4],
     [Value.num 5], [Value.num 6], [Value.num 7], [Value.num 8], [Value.num 9]]⟩)

/-- Counterexample file number 10: TIME runs 40..49. -/
def cxF10 : String × Table :=
  ("mission_10.csv", ⟨["TIME"],
    [[Value.num 40], [Value.num 41], [Value.num 42], [Value.num 43], [Value.num 44],
     [Value.num 45], [Value.num 46], [Value.num 47], [Value.num 48], [Value.num 49]]⟩)

/-- C6 counterexample: with a recognised TIME column present the
concatenation is re-sorted by time, so merging the three 10-row files
numbered 1, 2, 10 yields 30 rows whose first row comes from file 2, not
file 1 — the merged table does not keep its rows in file order 1, 2, 10
as claimed. -/
theorem merge_time_sort_breaks_file_order :
    (merge_csv_files [cxF1, cxF2, cxF10]).map (fun T => T.rows.length) = some 30 ∧
    (merge_csv_files [cxF1, cxF2, cxF10]).map
        (fun T => (T.rows.getD 0 []).getD 1 Value.missing) =
      some (Value.str "mission_2.csv") ∧
    ("mission_2.csv" : String) ≠ "mission_1.csv" := by
  refine ⟨by decide, by decide, by decide⟩

end Seaexplorer
